import Mathlib

/-
Verification of the procedural-simulation core (animals.js, simulation.js,
utils.js) against its natural-language specification.

The JavaScript source is shallowly embedded over the real numbers:
floating-point numbers become elements of ℝ, Math.atan2(y, x) becomes
Complex.arg (x + y i) (both have range (-π, π] and send the zero vector
to 0), Math.sqrt becomes Real.sqrt, and the in-place mutation style of the
source becomes explicit state passing.  Division by zero yields 0 in ℝ
where the source would produce NaN or Infinity.
-/

noncomputable section

open Real

/-- A 2D vector, mirroring the Vector2D value type of utils.js. -/
@[ext]
structure Vec2 where
  x : ℝ
  y : ℝ

namespace Vec2

/-- Vector2D.add (static): componentwise sum. -/
def add (v w : Vec2) : Vec2 := ⟨v.x + w.x, v.y + w.y⟩

/-- Vector2D.sub (static): componentwise difference. -/
def sub (v w : Vec2) : Vec2 := ⟨v.x - w.x, v.y - w.y⟩

/-- Vector2D.scale (static): multiply both components by a scalar. -/
def scaleV (v : Vec2) (k : ℝ) : Vec2 := ⟨v.x * k, v.y * k⟩

/-- Vector2D.div (in-place form): divide both components by a scalar. -/
def divV (v : Vec2) (k : ℝ) : Vec2 := ⟨v.x / k, v.y / k⟩

/-- Vector2D.addPolar: translate by radius * (cos angle, sin angle). -/
def addPolar (v : Vec2) (radius angle : ℝ) : Vec2 :=
  ⟨v.x + radius * Real.cos angle, v.y + radius * Real.sin angle⟩

/-- Vector2D.magnitude getter: sqrt (x*x + y*y). -/
def magnitude (v : Vec2) : ℝ := Real.sqrt (v.x * v.x + v.y * v.y)

/-- Vector2D.distance: Euclidean distance between two vectors. -/
def distV (v w : Vec2) : ℝ :=
  Real.sqrt ((v.x - w.x) * (v.x - w.x) + (v.y - w.y) * (v.y - w.y))

/-- Embedding of a vector as a complex number, used to express
Math.atan2 (y, x) as Complex.arg (x + y i). -/
def toC (v : Vec2) : ℂ := (v.x : ℂ) + (v.y : ℂ) * Complex.I

/-- Vector2D.angle getter: Math.atan2 (y, x), with range (-π, π] and
angle of the zero vector equal to 0 — exactly the behaviour of
Complex.arg. -/
def angle (v : Vec2) : ℝ := Complex.arg v.toC

/-- Vector2D.magnitude setter: rescale the vector to the given magnitude
(the zero vector is left at zero). -/
def setMag (v : Vec2) (m : ℝ) : Vec2 :=
  let curMag := magnitude v
  if curMag = 0 then ⟨0, 0⟩ else ⟨v.x / curMag * m, v.y / curMag * m⟩

/-- Vector2D.clampMag with both bounds given: clamp the magnitude into
[lo, hi], rebuilding the vector from its angle. -/
def clampMag (v : Vec2) (lo hi : ℝ) : Vec2 :=
  let a := angle v
  let m := magnitude v
  let clamped := max lo (min hi m)
  ⟨clamped * Real.cos a, clamped * Real.sin a⟩

/-- Vector2D.clampMag with a single bound m: clamp the magnitude into
[-m, m] (the one-argument convention of the source). -/
def clampMag1 (v : Vec2) (m : ℝ) : Vec2 := clampMag v (-m) m

end Vec2

instance : Inhabited Vec2 := ⟨⟨0, 0⟩⟩

open Vec2

/-- The utils.js getIntercectionPoint function: intersection points of two
circles, empty when the circles are too far apart or nested. -/
def getIntercectionPoint (p1 p2 : Vec2) (r1 r2 : ℝ) : List Vec2 :=
  let x1 := p1.x
  let y1 := p1.y
  let x2 := p2.x
  let y2 := p2.y
  let d := Real.sqrt ((x2 - x1) * (x2 - x1) + (y2 - y1) * (y2 - y1))
  if d > r1 + r2 ∨ d < |r1 - r2| then []
  else
    let a := (r1 * r1 - r2 * r2 + d * d) / (2 * d)
    let x3 := x1 + a * (x2 - x1) / d
    let y3 := y1 + a * (y2 - y1) / d
    let h := Real.sqrt (r1 * r1 - a * a)
    [⟨x3 + h * (y2 - y1) / d, y3 - h * (x2 - x1) / d⟩,
     ⟨x3 - h * (y2 - y1) / d, y3 + h * (x2 - x1) / d⟩]

/-- One chain link of a BodyBase spine (animals.js ChainLink). -/
structure ChainLink where
  radius : ℝ
  pos : Vec2
  directionAngle : ℝ

instance : Inhabited ChainLink := ⟨⟨0, ⟨0, 0⟩, 0⟩⟩

/-- The one-step angle normalisation used by ChainLink.update: values in
(-2π, 2π] are brought into (-π, π]. -/
def normA (θ : ℝ) : ℝ :=
  if θ > π then θ - 2 * π else if θ ≤ -π then θ + 2 * π else θ

/-- The clamp applied by ChainLink.update to the normalised angle
difference: the permitted diff magnitude is at least maxAngleRad. -/
def clampDiff (d mR : ℝ) : ℝ :=
  if d < 0 then min d (-mR) else max d mR

/-- ChainLink.update: reposition this link at the given distance from
distConstrainer, with the angle relative to the direction towards
angleConstrainer clamped outside the forbidden cone.  Note that the
source stores the PRE-clamp angle of the old position in directionAngle
while the position itself uses the clamped angle. -/
def chainLinkUpdate (c distConstrainer : ChainLink) (distance : ℝ)
    (angleConstrainer : ChainLink) (maxAngle : ℝ) : ChainLink :=
  let anchorAngle := angle (sub angleConstrainer.pos distConstrainer.pos)
  let currentAngle := angle (sub c.pos distConstrainer.pos)
  let angleDiff := normA (currentAngle - anchorAngle)
  let maxAngleRad := (180 - maxAngle) * π / 180
  let newAngle := clampDiff angleDiff maxAngleRad + anchorAngle
  { c with
    directionAngle := currentAngle
    pos := addPolar distConstrainer.pos distance newAngle }

/-- The i ≥ 2 loop of BodyBase.update: each link is resolved against the
already-updated previous link (distance constrainer) and the link before
that (angle constrainer). -/
def updChain (spacing scale maxAngle : ℝ) :
    ChainLink → ChainLink → List ChainLink → List ChainLink
  | _, _, [] => []
  | prev2, prev, c :: cs =>
    let c' := chainLinkUpdate c prev (spacing * scale) prev2 maxAngle
    c' :: updChain spacing scale maxAngle prev c' cs

/-- The spine state of a BodyBase (animals.js), restricted to the fields
the chain update and curvature computation read and write. -/
structure BodyState where
  links : List ChainLink
  spacing : ℝ
  maxAngle : ℝ
  scale : ℝ
  totalCurvature : ℝ

/-- The wrapped degree difference of directions of two consecutive links,
as computed inside BodyBase.getTotalCurvature (two sequential
conditionals in the source). -/
def degDiff (l1 l2 : ChainLink) : ℝ :=
  let dd := l2.directionAngle * 180 / π - l1.directionAngle * 180 / π
  let d1 := if dd > 180 then dd - 360 else dd
  if d1 < -180 then d1 + 360 else d1

/-- BodyBase.getTotalCurvature: sum the wrapped degree differences of
consecutive link directions from index 2 on, divide by
maxAngle * (linkCount - 2), and clamp into [-1, 1]. -/
def getTotalCurvature (b : BodyState) : ℝ :=
  let maxCurvature := b.maxAngle * ((b.links.length : ℝ) - 2)
  let curCurvature :=
    ((b.links.drop 1).zip (b.links.drop 2)).foldl
      (fun s p => s + degDiff p.1 p.2) 0
  min (max (curCurvature / maxCurvature) (-1)) 1

/-- BodyBase.update: pin the head to pos, place the second link at
spacing*scale from the head along the angle towards the second link's
old position, resolve every further link through ChainLink.update, and
recompute totalCurvature.  The source indexes chainLinks[0] and
chainLinks[1] unconditionally; chains shorter than 2 links (which the
constructor never produces) are left unchanged here. -/
def bodyUpdate (b : BodyState) (pos : Vec2) : BodyState :=
  match b.links with
  | l0 :: l1 :: rest =>
    let currentAngle := angle (sub l1.pos pos)
    let l0' := { l0 with pos := pos, directionAngle := currentAngle }
    let l1' := { l1 with
      pos := addPolar pos (b.spacing * b.scale) currentAngle
      directionAngle := currentAngle }
    let newLinks := l0' :: l1' :: updChain b.spacing b.scale b.maxAngle l0' l1' rest
    let b' := { b with links := newLinks }
    { b' with totalCurvature := getTotalCurvature b' }
  | _ => b

/-- The fixed configuration of a Leg3Joint (animals.js): everything the
constructor stores that update() reads but never writes. -/
structure LegParams where
  shoulderWidth : ℝ
  isShoulderRight : Bool
  isForwardBend : Bool
  anchorAngle : ℝ
  anchorDistance : ℝ
  maxDifference : ℝ
  returnSpeed : ℝ
  length1 : ℝ
  length2 : ℝ
  scale : ℝ

/-- The mutable state of a Leg3Joint: the three joints (shoulder, knee,
foot), the stuck latch and the last computed target point. -/
structure LegState where
  joints0 : Vec2
  joints1 : Vec2
  joints2 : Vec2
  sticked : Bool
  targetPoint : Vec2

/-- Leg3Joint.evalConnPoint: the shoulder anchor, offset perpendicular
to the parent link's direction (sign by shoulder side). -/
def evalConnPoint (P : LegParams) (link : ChainLink) : Vec2 :=
  let a := link.directionAngle + (π / 2) * (if P.isShoulderRight then -1 else 1)
  addPolar link.pos (P.shoulderWidth * P.scale) a

/-- Leg3Joint.evalTargetPoint: the foot target, computed from the given
joints[0] by the anchor angle (mirrored by shoulder side) and anchor
distance. -/
def evalTargetPoint (P : LegParams) (link : ChainLink) (j0 : Vec2) : Vec2 :=
  let a := link.directionAngle + P.anchorAngle * (if P.isShoulderRight then -1 else 1)
  addPolar j0 (P.anchorDistance * P.scale) a

/-- Leg3Joint.evalJointPoint: the knee as a circle-circle intersection
between shoulder and foot, with the branch picked by
isForwardBend XOR isShoulderRight, falling back to linear interpolation
weighted by the segment-length ratio when there is no intersection. -/
def evalJointPoint (P : LegParams) (j0 j2 : Vec2) : Vec2 :=
  let intersectionPoints :=
    getIntercectionPoint j0 j2 (P.length1 * P.scale) (P.length2 * P.scale)
  if intersectionPoints.length > 0 then
    intersectionPoints.getD (if xor P.isForwardBend P.isShoulderRight then 1 else 0) default
  else
    let t := P.length1 / (P.length1 + P.length2)
    ⟨j0.x + t * (j2.x - j0.x), j0.y + t * (j2.y - j0.y)⟩

/-- Leg3Joint.update: recompute the target from the old joints[0],
unstick when the foot is too far from the target, move joints[0] to the
live shoulder anchor, and, while unstuck, advance the foot (snapping to
the target when within reach, whipping when overstretched past 1.5 times
the leg length); finally resolve the knee. -/
def legUpdate (P : LegParams) (link : ChainLink) (s : LegState) : LegState :=
  let target := evalTargetPoint P link s.joints0
  let dist1 := distV s.joints2 target
  let sticked1 := if dist1 > P.maxDifference * P.scale then false else s.sticked
  let newJoint0 := evalConnPoint P link
  let distTraveled := distV s.joints0 newJoint0
  if sticked1 then
    { joints0 := newJoint0
      joints1 := evalJointPoint P newJoint0 s.joints2
      joints2 := s.joints2
      sticked := true
      targetPoint := target }
  else
    let availableDistance := distTraveled * P.returnSpeed
    let distToTarget := distV s.joints2 target
    let lengthSum := (P.length1 + P.length2) * P.scale
    if distToTarget ≤ availableDistance then
      { joints0 := newJoint0
        joints1 := evalJointPoint P newJoint0 target
        joints2 := target
        sticked := true
        targetPoint := target }
    else
      let ratio :=
        (if distToTarget < lengthSum * 1.5 then availableDistance
         else distToTarget - lengthSum) / distToTarget
      let j2 : Vec2 :=
        ⟨s.joints2.x + ratio * (target.x - s.joints2.x),
         s.joints2.y + ratio * (target.y - s.joints2.y)⟩
      { joints0 := newJoint0
        joints1 := evalJointPoint P newJoint0 j2
        joints2 := j2
        sticked := false
        targetPoint := target }

/-- SimulationParams (simulation.js): the force and cap configuration. -/
structure SimulationParams where
  perceptionRadius : ℝ
  alignmentImpact : ℝ
  cohesionImpact : ℝ
  avoidanceImpact : ℝ
  mouseForceRadius : ℝ
  mouseForceScale : ℝ
  maxVelocity : ℝ
  maxAcceleration : ℝ

/-- A boid (simulation.js): kinematic state plus an optional attached
animal body. -/
structure Boid where
  position : Vec2
  velocity : Vec2
  acceleration : Vec2
  animal : Option BodyState

instance : Inhabited Boid := ⟨⟨⟨0, 0⟩, ⟨0, 0⟩, ⟨0, 0⟩, none⟩⟩

/-- The simulation boundaries record: width/height/left/top derived from
a margin. -/
structure Bounds where
  width : ℝ
  height : ℝ
  left : ℝ
  top : ℝ
  margin : ℝ

/-- The boundary computation of the Simulation constructor:
width + margin*2 by height + margin*2 anchored at (-margin, -margin). -/
def mkBounds (width height margin : ℝ) : Bounds :=
  ⟨width + margin * 2, height + margin * 2, -margin, -margin, margin⟩

/-- Simulation.setBounds with the margin argument supplied.  The first
line of the source reads "newWidth = Math.max(1, newMargin)" — it takes
the maximum with the MARGIN, not with the requested width; the
(unused : Bounds) parameter mirrors the receiver, which this path never
reads.  (When the margin argument is omitted the source computes
Math.max(1, undefined) = NaN, which has no real-number counterpart.) -/
def setBounds (newWidth newHeight newMargin : ℝ) (unused : Bounds) : Bounds :=
  let w := max 1 newMargin
  let h := max 1 newHeight
  let margin := newMargin
  ⟨w + margin * 2, h + margin * 2, -margin, -margin, margin⟩

/-- Boid.edges: hard wrap of the position across each crossed boundary. -/
def edgesB (boundaries : Bounds) (b : Boid) : Boid :=
  let px :=
    if b.position.x > boundaries.width + boundaries.left then boundaries.left
    else if b.position.x < boundaries.left then boundaries.width + boundaries.left
    else b.position.x
  let py :=
    if b.position.y > boundaries.height + boundaries.top then boundaries.top
    else if b.position.y < boundaries.top then boundaries.height + boundaries.top
    else b.position.y
  { b with position := ⟨px, py⟩ }

/-- Pair each list element with its index, to model the identity-based
self-exclusion (boid != this) of the neighbour scans by index. -/
def enumerate (l : List α) : List (ℕ × α) := (List.range l.length).zip l

/-- Boid.align: average the velocities of neighbours within the
perception radius, set the magnitude to maxVelocity, subtract own
velocity and clamp to maxAcceleration. -/
def alignB (boids : List Boid) (selfIdx : ℕ) (self : Boid)
    (params : SimulationParams) : Vec2 :=
  let acc := (enumerate boids).foldl
    (fun (st : Vec2 × ℕ) bi =>
      let d := distV self.position bi.2.position
      if d < params.perceptionRadius ∧ bi.1 ≠ selfIdx then
        (add st.1 bi.2.velocity, st.2 + 1)
      else st)
    (⟨0, 0⟩, 0)
  if acc.2 > 0 then
    clampMag1 (sub (setMag (divV acc.1 (acc.2 : ℝ)) params.maxVelocity) self.velocity)
      params.maxAcceleration
  else acc.1

/-- Boid.cohesion: steer towards the average position of neighbours,
using the same magnitude-set / subtract / clamp pattern. -/
def cohesionB (boids : List Boid) (selfIdx : ℕ) (self : Boid)
    (params : SimulationParams) : Vec2 :=
  let acc := (enumerate boids).foldl
    (fun (st : Vec2 × ℕ) bi =>
      let d := distV self.position bi.2.position
      if d < params.perceptionRadius ∧ bi.1 ≠ selfIdx then
        (add st.1 bi.2.position, st.2 + 1)
      else st)
    (⟨0, 0⟩, 0)
  if acc.2 > 0 then
    clampMag1
      (sub (setMag (sub (divV acc.1 (acc.2 : ℝ)) self.position) params.maxVelocity)
        self.velocity)
      params.maxAcceleration
  else acc.1

/-- Boid.separate: sum the offsets away from each neighbour weighted by
inverse distance, then the same magnitude-set / subtract / clamp
pattern. -/
def separateB (boids : List Boid) (selfIdx : ℕ) (self : Boid)
    (params : SimulationParams) : Vec2 :=
  let acc := (enumerate boids).foldl
    (fun (st : Vec2 × ℕ) bi =>
      let d := distV self.position bi.2.position
      if d < params.perceptionRadius ∧ bi.1 ≠ selfIdx then
        (add st.1 (divV (sub self.position bi.2.position) d), st.2 + 1)
      else st)
    (⟨0, 0⟩, 0)
  if acc.2 > 0 then
    clampMag1 (sub (setMag (divV acc.1 (acc.2 : ℝ)) params.maxVelocity) self.velocity)
      params.maxAcceleration
  else acc.1

/-- Boid.flock: reset the acceleration to zero and add the three
steering vectors, each scaled by its impact weight. -/
def flockAccel (boids : List Boid) (selfIdx : ℕ) (self : Boid)
    (params : SimulationParams) : Vec2 :=
  let alignment := scaleV (alignB boids selfIdx self params) params.alignmentImpact
  let cohesion := scaleV (cohesionB boids selfIdx self params) params.cohesionImpact
  let avoidance := scaleV (separateB boids selfIdx self params) params.avoidanceImpact
  add (add (add ⟨0, 0⟩ alignment) cohesion) avoidance

/-- Boid.applyForce: no-op when a radius is given and the point is
farther away than it; otherwise add to the acceleration the vector from
the point to the boid rescaled to magnitude (1/distance) * scale. -/
def applyForce (b : Boid) (vec : Vec2) (scale : ℝ) (radius : Option ℝ) : Boid :=
  let forceVec := sub b.position vec
  let pushed : Boid :=
    { b with
      acceleration :=
        add b.acceleration (setMag forceVec (1 / magnitude forceVec * scale)) }
  match radius with
  | some r => if magnitude forceVec > r then b else pushed
  | none => pushed

/-- Boid.update: a complete no-op when deltaTime is falsy; otherwise
integrate position and velocity, clamp the velocity, and run the
attached animal's spine update TWICE with the new position.  The second
component counts how many times animal.update was invoked. -/
def boidUpdate (b : Boid) (deltaTime : ℝ) (params : SimulationParams) : Boid × ℕ :=
  if deltaTime = 0 then (b, 0)
  else
    let pos' := add b.position (scaleV b.velocity deltaTime)
    let vel' := clampMag1 (add b.velocity b.acceleration) params.maxVelocity
    match b.animal with
    | none => ({ b with position := pos', velocity := vel' }, 0)
    | some a =>
      ({ b with
          position := pos'
          velocity := vel'
          animal := some (bodyUpdate (bodyUpdate a pos') pos') }, 2)

/-- The simulation state: the boid collection, boundaries, parameters
and the current ripple points (the positions RipplesManager.getPoints
would return). -/
structure SimState where
  flock : List Boid
  boundaries : Bounds
  params : SimulationParams
  ripples : List Vec2

/-- The body of the per-boid loop of Simulation.update: wrap at the
edges, recompute the flocking acceleration against the current list
(with this boid's wrapped position already visible), apply one point
force per ripple, and integrate.  Returns the updated list and the
number of animal.update invocations for this boid. -/
def simStepAt (s : SimState) (dt : ℝ) (boids : List Boid) (i : ℕ) :
    List Boid × ℕ :=
  let b1 := edgesB s.boundaries (boids.getD i default)
  let boids1 := boids.set i b1
  let b2 := { b1 with acceleration := flockAccel boids1 i b1 s.params }
  let b3 := s.ripples.foldl
    (fun bb pt => applyForce bb pt s.params.mouseForceScale (some s.params.mouseForceRadius))
    b2
  let r := boidUpdate b3 dt s.params
  (boids1.set i r.1, r.2)

/-- Simulation.update: snapshot the ripple points once, then run the
per-boid loop over the whole flock in order.  The second component lists,
per boid in order, how many times that boid's animal was updated. -/
def simUpdate (s : SimState) (dt : ℝ) : SimState × List ℕ :=
  let r := (List.range s.flock.length).foldl
    (fun (st : List Boid × List ℕ) i =>
      let p := simStepAt s dt st.1 i
      (p.1, st.2 ++ [p.2]))
    (s.flock, [])
  ({ s with flock := r.1 }, r.2)

end

/-- The state of a RipplesManager (simulation.js): the capped point
collection.  The stored record type is a parameter; removal matches the
indexOf/splice pair of the source, which deletes the first occurrence of
the given record if present. -/
structure RipplesState (α : Type) where
  points : List α
  maxRipples : ℕ

/-- RipplesManager.addPoint: a no-op at or above capacity, otherwise
push the point at the end of the collection. -/
def ripplesAddPoint (s : RipplesState α) (a : α) : RipplesState α :=
  if s.points.length ≥ s.maxRipples then s
  else { s with points := s.points ++ [a] }

/-- RipplesManager.removePoint: remove the first occurrence of the given
record, a no-op when it is absent. -/
def ripplesRemovePoint [DecidableEq α] (s : RipplesState α) (a : α) :
    RipplesState α :=
  { s with points := s.points.erase a }

/-- An externally triggered operation on a RipplesManager. -/
inductive RippleOp (α : Type) where
  | addPt (a : α) : RippleOp α
  | removePt (a : α) : RippleOp α

/-- Run a sequence of addPoint/removePoint calls against a manager
state. -/
def ripplesRun [DecidableEq α] (s : RipplesState α) (ops : List (RippleOp α)) :
    RipplesState α :=
  ops.foldl
    (fun st op =>
      match op with
      | .addPt a => ripplesAddPoint st a
      | .removePt a => ripplesRemovePoint st a)
    s

/-- The RipplesManager constructor state: an empty collection with the
given capacity. -/
def ripplesInit (α : Type) (maxRipples : ℕ) : RipplesState α :=
  ⟨[], maxRipples⟩

noncomputable section

open Vec2

/-- A concrete three-link spine used to exercise BodyBase.update: head
at (5,5), second link at (1,0), third link at (0,0), spacing 1,
maxAngle 90 degrees. -/
def bodyCex : BodyState :=
  { links := [⟨1, ⟨5, 5⟩, 0⟩, ⟨1, ⟨1, 0⟩, 0⟩, ⟨1, ⟨0, 0⟩, 0⟩]
    spacing := 1
    maxAngle := 90
    scale := 1
    totalCurvature := 0 }

/-- A concrete two-link spine (the auto-padded minimum) used as a
witness chain. -/
def bodyW : BodyState :=
  { links := [⟨10, ⟨0, 0⟩, 0⟩, ⟨10, ⟨0, 10⟩, 0⟩]
    spacing := 10
    maxAngle := 30
    scale := 1
    totalCurvature := 0 }

/-- Default-like simulation parameters for concrete runs. -/
def paramsW : SimulationParams :=
  ⟨50, 1, 0.4, 1, 150, 100, 8, 1⟩

/-- A one-boid simulation whose boid carries an animal body, no active
ripples. -/
def simW : SimState :=
  { flock := [{ position := ⟨0, 0⟩
                velocity := ⟨0, 0⟩
                acceleration := ⟨0, 0⟩
                animal := some bodyW }]
    boundaries := mkBounds 100 100 10
    params := paramsW
    ripples := [] }

/-- A concrete leg configuration: left shoulder, anchor straight ahead
at distance 1, generous maxDifference. -/
def legPW : LegParams :=
  { shoulderWidth := 1
    isShoulderRight := false
    isForwardBend := false
    anchorAngle := 0
    anchorDistance := 1
    maxDifference := 30
    returnSpeed := 2
    length1 := 20
    length2 := 20
    scale := 1 }

/-- The stationary parent link for the concrete leg. -/
def legLinkW : ChainLink := ⟨1, ⟨0, 0⟩, 0⟩

/-- A concrete leg state: shoulder at the anchor point (0,1), foot
planted exactly on the target (1,1), stuck. -/
def legSW : LegState :=
  { joints0 := ⟨0, 1⟩
    joints1 := ⟨0, 0⟩
    joints2 := ⟨1, 1⟩
    sticked := true
    targetPoint := ⟨1, 1⟩ }

end

noncomputable section

open Vec2 Real

/-- Helper: the one-step normalisation changes its input by 0 or ±2π. -/
theorem normA_cases (θ : ℝ) :
    normA θ = θ ∨ normA θ = θ - 2 * π ∨ normA θ = θ + 2 * π := by
  unfold normA
  split_ifs <;> tauto

/-- Helper: on (-2π, 2π] the one-step normalisation lands in (-π, π]. -/
theorem normA_mem_Ioc {θ : ℝ} (h1 : -(2 * π) < θ) (h2 : θ ≤ 2 * π) :
    -π < normA θ ∧ normA θ ≤ π := by
  have hπ := Real.pi_pos
  unfold normA
  split_ifs with ha hb <;> constructor <;> linarith

/-- Helper: normalisation is the identity on (-π, π]. -/
theorem normA_id {θ : ℝ} (h1 : -π < θ) (h2 : θ ≤ π) : normA θ = θ := by
  have hπ := Real.pi_pos
  unfold normA
  rw [if_neg (by linarith), if_neg (by linarith)]

/-- Helper: cosine is invariant under the one-step normalisation. -/
theorem cos_normA (θ : ℝ) : Real.cos (normA θ) = Real.cos θ := by
  unfold normA
  split_ifs <;> simp [Real.cos_sub_two_pi, Real.cos_add_two_pi]

/-- Helper: sine is invariant under the one-step normalisation. -/
theorem sin_normA (θ : ℝ) : Real.sin (normA θ) = Real.sin θ := by
  unfold normA
  split_ifs <;> simp [Real.sin_sub_two_pi, Real.sin_add_two_pi]

/-- Helper: the clamped diff always has magnitude at least the
threshold. -/
theorem clampDiff_abs_ge (d mR : ℝ) : mR ≤ |clampDiff d mR| := by
  unfold clampDiff
  rcases le_or_lt mR 0 with h | h
  · split_ifs with hd
    · exact le_trans h (abs_nonneg _)
    · exact le_trans (le_max_right _ _) (le_abs_self _)
  · split_ifs with hd
    · rcases le_or_lt d (-mR) with hc | hc
      · rw [min_eq_left hc, abs_of_neg hd]; linarith
      · rw [min_eq_right hc.le, abs_of_nonpos (by linarith)]; linarith
    · exact le_trans (le_max_right _ _) (le_abs_self _)

/-- Helper: the clamped diff stays in [-π, π] when the input diff does
and the threshold is at most π. -/
theorem clampDiff_mem {d mR : ℝ} (h1 : -π ≤ d) (h2 : d ≤ π) (h3 : mR ≤ π) :
    -π ≤ clampDiff d mR ∧ clampDiff d mR ≤ π := by
  unfold clampDiff
  split_ifs with hd
  · exact ⟨le_min h1 (by linarith), le_trans (min_le_left _ _) h2⟩
  · exact ⟨le_trans h1 (le_max_left _ _), max_le h2 h3⟩

/-- Helper: a diff already outside the forbidden cone is not moved by
the clamp. -/
theorem clampDiff_fix {d mR : ℝ} (h : mR ≤ |d|) : clampDiff d mR = d := by
  unfold clampDiff
  split_ifs with hd
  · rw [abs_of_neg hd] at h
    exact min_eq_left (by linarith)
  · rw [abs_of_nonneg (not_lt.1 hd)] at h
    exact max_eq_left h

/-- Helper: the angle of any vector lies in (-π, π]. -/
theorem angle_mem_Ioc (v : Vec2) : -π < angle v ∧ angle v ≤ π := by
  have h := Complex.arg_mem_Ioc v.toC
  exact ⟨h.1, h.2⟩

/-- Helper: the vector from Q to Q displaced by polar (r, t) has angle
normA t when r is positive and t lies in (-2π, 2π]. -/
theorem angle_addPolar_sub (Q : Vec2) {r t : ℝ} (hr : 0 < r)
    (h1 : -(2 * π) < t) (h2 : t ≤ 2 * π) :
    angle (sub (addPolar Q r t) Q) = normA t := by
  have hv : sub (addPolar Q r t) Q = ⟨r * Real.cos t, r * Real.sin t⟩ := by
    unfold sub addPolar
    ext <;> dsimp <;> ring
  have hmem : normA t ∈ Set.Ioc (-π) π := by
    have := normA_mem_Ioc h1 h2
    exact ⟨this.1, this.2⟩
  have hc : (↑(r * Real.cos t) + ↑(r * Real.sin t) * Complex.I : ℂ)
      = (r : ℂ) * (Complex.cos (normA t) + Complex.sin (normA t) * Complex.I) := by
    rw [← cos_normA t, ← sin_normA t, ← Complex.ofReal_cos, ← Complex.ofReal_sin]
    push_cast
    ring
  rw [hv]
  unfold angle toC
  dsimp
  rw [hc, Complex.arg_mul_cos_add_sin_mul_I hr hmem]

/-- Helper: addPolar with radius 0 is the identity on the base point. -/
theorem addPolar_zero (Q : Vec2) (t : ℝ) : addPolar Q 0 t = Q := by
  unfold addPolar
  ext <;> dsimp <;> ring

/-- C4.  For every valid BodyBase chain (at least 2 links) and any
sequence of head positions driven through update, getTotalCurvature
returns a value in [-1, 1] (the final clamp guarantees it; over ℝ the
division by maxAngle*(linkCount-2) cannot produce NaN). -/
theorem c4_total_curvature_in_unit_interval (b : BodyState) (ps : List Vec2)
    (h : 2 ≤ b.links.length) :
    -1 ≤ getTotalCurvature (ps.foldl bodyUpdate b) ∧
      getTotalCurvature (ps.foldl bodyUpdate b) ≤ 1 := by
  unfold getTotalCurvature
  exact ⟨le_min (le_max_right _ _) (by norm_num), min_le_right _ _⟩

/-- Witness for C4 at a concrete two-link chain and an empty head
trajectory. -/
theorem c4_witness :
    2 ≤ bodyW.links.length ∧
      (-1 ≤ getTotalCurvature (List.foldl bodyUpdate bodyW []) ∧
        getTotalCurvature (List.foldl bodyUpdate bodyW []) ≤ 1) :=
  ⟨by simp [bodyW], c4_total_curvature_in_unit_interval bodyW [] (by simp [bodyW])⟩

/-- C10.  Boid.update with deltaTime = 0 (the only falsy real) is a
complete no-op: the state is unchanged and the animal is not updated
(invocation count 0). -/
theorem c10_boid_update_zero_delta_noop (b : Boid) (params : SimulationParams) :
    boidUpdate b 0 params = (b, 0) := by
  simp [boidUpdate]

/-- Helper: run-of-operations invariant for the ripple queue — the
length bound is preserved and the capacity never changes. -/
theorem ripplesRun_invariant {α : Type} [DecidableEq α]
    (ops : List (RippleOp α)) (s : RipplesState α)
    (h : s.points.length ≤ s.maxRipples) :
    (ripplesRun s ops).points.length ≤ (ripplesRun s ops).maxRipples ∧
      (ripplesRun s ops).maxRipples = s.maxRipples := by
  induction ops generalizing s with
  | nil => exact ⟨h, rfl⟩
  | cons op ops ih =>
    cases op with
    | addPt a =>
      have hstep : (ripplesAddPoint s a).points.length ≤ (ripplesAddPoint s a).maxRipples ∧
          (ripplesAddPoint s a).maxRipples = s.maxRipples := by
        unfold ripplesAddPoint
        split_ifs with hc
        · exact ⟨h, rfl⟩
        · constructor
          · simp only [List.length_append, List.length_singleton]
            omega
          · rfl
      have := ih (ripplesAddPoint s a) hstep.1
      exact ⟨this.1, this.2.trans hstep.2⟩
    | removePt a =>
      have hstep : (ripplesRemovePoint s a).points.length ≤ (ripplesRemovePoint s a).maxRipples ∧
          (ripplesRemovePoint s a).maxRipples = s.maxRipples := by
        refine ⟨?_, rfl⟩
        unfold ripplesRemovePoint
        exact le_trans ((s.points.erase_sublist a).length_le) h
      have := ih (ripplesRemovePoint s a) hstep.1
      exact ⟨this.1, this.2.trans hstep.2⟩

/-- C8.  For every sequence of addPoint/removePoint calls starting from
the constructor state, the point collection never exceeds maxRipples,
and an addPoint issued while the collection is full leaves the state
unchanged. -/
theorem c8_ripples_capacity_bound {α : Type} [DecidableEq α] (m : ℕ)
    (ops : List (RippleOp α)) :
    (ripplesRun (ripplesInit α m) ops).points.length ≤ m ∧
      ∀ (s : RipplesState α) (a : α),
        s.points.length = s.maxRipples → ripplesAddPoint s a = s := by
  constructor
  · have h := ripplesRun_invariant ops (ripplesInit α m) (by simp [ripplesInit])
    exact le_of_le_of_eq h.1 h.2
  · intro s a hfull
    unfold ripplesAddPoint
    rw [if_pos (le_of_eq hfull.symm)]

/-- Witness for C8: a capacity-1 queue receiving two insertions holds at
most one point, and inserting into a full concrete queue is a no-op. -/
theorem c8_witness :
    (ripplesRun (ripplesInit ℕ 1) [RippleOp.addPt 4, RippleOp.addPt 7]).points.length ≤ 1 ∧
      (({ points := [5], maxRipples := 1 } : RipplesState ℕ).points.length =
          ({ points := [5], maxRipples := 1 } : RipplesState ℕ).maxRipples ∧
        ripplesAddPoint ({ points := [5], maxRipples := 1 } : RipplesState ℕ) 7 =
          { points := [5], maxRipples := 1 }) :=
  ⟨(c8_ripples_capacity_bound 1 [RippleOp.addPt 4, RippleOp.addPt 7]).1,
    by decide,
    (c8_ripples_capacity_bound 1 []).2 _ 7 (by decide)⟩

/-- C6 (code bug).  The constructor-side boundary computation does span
[-margin, width+margin] on the x axis, but setBounds(100, 50, 10) does
not: its first line takes Math.max(1, newMargin) — the MARGIN, not the
requested width — so the x span ends at 20 instead of the claimed
100 + 10 = 110. -/
theorem c6_set_bounds_uses_margin_for_width :
    (∀ w h m : ℝ, (mkBounds w h m).left = -m ∧
        (mkBounds w h m).left + (mkBounds w h m).width = w + m) ∧
      (setBounds 100 50 10 (mkBounds 1600 600 200)).left = -10 ∧
      (setBounds 100 50 10 (mkBounds 1600 600 200)).left +
          (setBounds 100 50 10 (mkBounds 1600 600 200)).width = 20 ∧
      (20 : ℝ) ≠ 100 + 10 := by
  refine ⟨fun w h m => ⟨rfl, ?_⟩, rfl, ?_, by norm_num⟩
  · unfold mkBounds
    dsimp
    ring
  · unfold setBounds
    dsimp
    rw [max_eq_right (by norm_num : (1 : ℝ) ≤ 10)]
    norm_num

/-- Helper: the magnitude of a difference is the distance between the
two points. -/
theorem magnitude_sub (v w : Vec2) : magnitude (sub v w) = distV v w := rfl

/-- Helper: the magnitude setter applied with (1/magnitude)*s is plain
scaling by s/magnitude², including for the zero vector (where both
sides are the zero vector, since s/0 = 0 over ℝ). -/
theorem setMag_inv_scale (v : Vec2) (s : ℝ) :
    setMag v (1 / magnitude v * s) = scaleV v (s / magnitude v ^ 2) := by
  unfold setMag scaleV
  by_cases h : magnitude v = 0
  · rw [if_pos h, h]
    ext <;> dsimp <;> simp
  · rw [if_neg h]
    ext <;> dsimp <;> rw [sq] <;> field_simp

/-- Helper: magnitude scales absolutely under scalar multiplication. -/
theorem magnitude_scaleV (v : Vec2) (k : ℝ) :
    magnitude (scaleV v k) = |k| * magnitude v := by
  unfold magnitude scaleV
  dsimp
  rw [show v.x * k * (v.x * k) + v.y * k * (v.y * k)
      = k * k * (v.x * v.x + v.y * v.y) by ring,
    Real.sqrt_mul (mul_self_nonneg k), Real.sqrt_mul_self_eq_abs]

/-- C9.  Boid.applyForce: with a radius given and the point farther than
it, the boid is unchanged; otherwise (in radius, or no radius) the
acceleration gains the vector from the point to the boid scaled by
s/d², whose magnitude is s/d for s ≥ 0, d > 0 — the s/d-rescaled
inverse-distance force of the claim (at d = 0 the added vector is the
zero vector). -/
theorem c9_apply_force_characterisation (b : Boid) (p : Vec2) (s r : ℝ) :
    (distV b.position p > r → applyForce b p s (some r) = b) ∧
    (distV b.position p ≤ r →
      applyForce b p s (some r) =
        { b with
          acceleration :=
            add b.acceleration
              (scaleV (sub b.position p) (s / distV b.position p ^ 2)) }) ∧
    applyForce b p s none =
      { b with
        acceleration :=
          add b.acceleration
            (scaleV (sub b.position p) (s / distV b.position p ^ 2)) } ∧
    (0 ≤ s → 0 < distV b.position p →
      magnitude (scaleV (sub b.position p) (s / distV b.position p ^ 2)) =
        s / distV b.position p) := by
  have hmag : magnitude (sub b.position p) = distV b.position p := rfl
  refine ⟨?_, ?_, ?_, ?_⟩
  · intro h
    unfold applyForce
    dsimp only
    rw [if_pos (show magnitude (sub b.position p) > r from hmag ▸ h)]
  · intro h
    unfold applyForce
    dsimp only
    rw [if_neg (show ¬magnitude (sub b.position p) > r from hmag ▸ not_lt.2 h),
      setMag_inv_scale, hmag]
  · unfold applyForce
    dsimp only
    rw [setMag_inv_scale, hmag]
  · intro hs hd
    rw [magnitude_scaleV, magnitude_sub,
      abs_of_nonneg (div_nonneg hs (sq_nonneg _))]
    have hne : distV b.position p ≠ 0 := ne_of_gt hd
    field_simp
    ring

/-- Witness for C9: a boid at (3,0) pulled from the origin with scale 2
inside radius 5 gains acceleration (2/9)·(3,0). -/
theorem c9_witness :
    distV ⟨3, 0⟩ ⟨0, 0⟩ ≤ 5 ∧
      applyForce ⟨⟨3, 0⟩, ⟨0, 0⟩, ⟨0, 0⟩, none⟩ ⟨0, 0⟩ 2 (some 5) =
        ⟨⟨3, 0⟩, ⟨0, 0⟩,
          add ⟨0, 0⟩ (scaleV (sub ⟨3, 0⟩ ⟨0, 0⟩) (2 / distV ⟨3, 0⟩ ⟨0, 0⟩ ^ 2)),
          none⟩ := by
  have hd : distV (⟨3, 0⟩ : Vec2) ⟨0, 0⟩ = 3 := by
    unfold distV
    dsimp
    rw [show ((3 : ℝ) - 0) * (3 - 0) + (0 - 0) * (0 - 0) = 3 ^ 2 by norm_num,
      Real.sqrt_sq (by norm_num : (0 : ℝ) ≤ 3)]
  refine ⟨by rw [hd]; norm_num, ?_⟩
  exact (c9_apply_force_characterisation ⟨⟨3, 0⟩, ⟨0, 0⟩, ⟨0, 0⟩, none⟩ ⟨0, 0⟩ 2 5).2.1
    (by rw [hd]; norm_num)

/-- C5 (code bug).  One Simulation.update tick with a nonzero deltaTime
invokes the attached animal's update TWICE for the boid, not once: the
per-boid invocation count list for a one-boid simulation is [2]. -/
theorem c5_animal_updated_twice_per_tick :
    (simUpdate simW 1).2 = [2] ∧ (2 : ℕ) ≠ 1 := by
  constructor
  · norm_num [simUpdate, simStepAt, simW, paramsW, boidUpdate, edgesB, mkBounds,
      List.range_succ, List.range_zero]
  · decide

/-- Helper: one legUpdate step on a stuck, settled state with the foot
within reach of the target leaves the foot where it is and stays
stuck. -/
theorem legUpdate_stuck_step (P : LegParams) (link : ChainLink) (t : LegState)
    (h1 : t.sticked = true) (h3 : t.joints0 = evalConnPoint P link)
    (hd : distV t.joints2 (evalTargetPoint P link (evalConnPoint P link)) ≤
      P.maxDifference * P.scale) :
    legUpdate P link t =
      { joints0 := evalConnPoint P link
        joints1 := evalJointPoint P (evalConnPoint P link) t.joints2
        joints2 := t.joints2
        sticked := true
        targetPoint := evalTargetPoint P link (evalConnPoint P link) } := by
  unfold legUpdate
  dsimp only
  rw [h3, if_neg (not_lt.2 hd), h1, if_pos rfl]

/-- C7.  A Leg3Joint whose parent link is stationary, whose shoulder is
settled on the live anchor, and whose foot is within maxDifference*scale
of the target stays stuck across any number of update() calls, and the
foot joint is never moved. -/
theorem c7_leg_stays_stuck (P : LegParams) (link : ChainLink) (s : LegState)
    (n : ℕ) (hst : s.sticked = true)
    (hj0 : s.joints0 = evalConnPoint P link)
    (hdist : distV s.joints2 (evalTargetPoint P link (evalConnPoint P link)) ≤
      P.maxDifference * P.scale) :
    ((legUpdate P link)^[n] s).sticked = true ∧
      ((legUpdate P link)^[n] s).joints2 = s.joints2 := by
  have main : ∀ k : ℕ, ((legUpdate P link)^[k] s).sticked = true ∧
      ((legUpdate P link)^[k] s).joints2 = s.joints2 ∧
      ((legUpdate P link)^[k] s).joints0 = evalConnPoint P link := by
    intro k
    induction k with
    | zero => exact ⟨hst, rfl, hj0⟩
    | succ k ih =>
      obtain ⟨h1, h2, h3⟩ := ih
      rw [Function.iterate_succ_apply',
        legUpdate_stuck_step P link _ h1 h3 (by rw [h2]; exact hdist)]
      exact ⟨rfl, h2, rfl⟩
  exact ⟨(main n).1, (main n).2.1⟩

/-- Witness for C7: the concrete stuck leg with a stationary parent link
remains stuck with an unmoved foot after two updates. -/
theorem c7_witness :
    legSW.sticked = true ∧
      legSW.joints0 = evalConnPoint legPW legLinkW ∧
      distV legSW.joints2 (evalTargetPoint legPW legLinkW (evalConnPoint legPW legLinkW)) ≤
        legPW.maxDifference * legPW.scale ∧
      (((legUpdate legPW legLinkW)^[2] legSW).sticked = true ∧
        ((legUpdate legPW legLinkW)^[2] legSW).joints2 = legSW.joints2) := by
  have hconn : evalConnPoint legPW legLinkW = ⟨0, 1⟩ := by
    unfold evalConnPoint legPW legLinkW addPolar
    dsimp
    ext <;> dsimp
    · rw [show (0 : ℝ) + π / 2 * 1 = π / 2 by ring, Real.cos_pi_div_two]
      ring
    · rw [show (0 : ℝ) + π / 2 * 1 = π / 2 by ring, Real.sin_pi_div_two]
      ring
  have htgt : evalTargetPoint legPW legLinkW ⟨0, 1⟩ = ⟨1, 1⟩ := by
    unfold evalTargetPoint legPW legLinkW addPolar
    dsimp
    ext <;> dsimp
    · rw [show (0 : ℝ) + 0 * 1 = 0 by ring, Real.cos_zero]
      ring
    · rw [show (0 : ℝ) + 0 * 1 = 0 by ring, Real.sin_zero]
      ring
  have hj0 : legSW.joints0 = evalConnPoint legPW legLinkW := by
    rw [hconn]; rfl
  have hdist : distV legSW.joints2
      (evalTargetPoint legPW legLinkW (evalConnPoint legPW legLinkW)) ≤
        legPW.maxDifference * legPW.scale := by
    rw [hconn, htgt]
    unfold distV legSW legPW
    dsimp
    rw [show ((1 : ℝ) - 1) * (1 - 1) + (1 - 1) * (1 - 1) = 0 by ring, Real.sqrt_zero]
    norm_num
  exact ⟨rfl, hj0, hdist, c7_leg_stays_stuck legPW legLinkW legSW 2 rfl hj0 hdist⟩

/-- Helper: the angle of the unit vector (1,0) is 0. -/
theorem angle_unit_x : angle ⟨1, 0⟩ = 0 := by
  have h : toC ⟨1, 0⟩ = 1 := by
    unfold toC
    dsimp
    norm_num
  unfold angle
  rw [h, Complex.arg_one]

/-- Helper: the angle of (-1,0) is π. -/
theorem angle_neg_unit_x : angle ⟨-1, 0⟩ = π := by
  have h : toC ⟨-1, 0⟩ = -1 := by
    unfold toC
    dsimp
    push_cast
    ring
  unfold angle
  rw [h, Complex.arg_neg_one]

/-- Helper: the angle of (0,-1) is -π/2. -/
theorem angle_neg_unit_y : angle ⟨0, -1⟩ = -(π / 2) := by
  have h : toC ⟨0, -1⟩ = -Complex.I := by
    unfold toC
    dsimp
    push_cast
    ring
  unfold angle
  rw [h, Complex.arg_neg_I]

/-- Helper: the central inequality behind the clamp invariant — any
value w in (-π, π] that differs from the clamped diff κ by a multiple
of 2π inherits the magnitude bound. -/
theorem clamp_wrap_bound {mR κ w : ℝ} (hmRπ : mR ≤ π)
    (hκ1 : -π ≤ κ) (hκ2 : κ ≤ π) (hκabs : mR ≤ |κ|)
    (hw1 : -π < w) (hw2 : w ≤ π)
    (hk : w = κ ∨ w = κ + 2 * π ∨ w = κ - 2 * π ∨
      w = κ + 4 * π ∨ w = κ - 4 * π) :
    mR ≤ |w| := by
  have hπ := Real.pi_pos
  rcases hk with h | h | h | h | h
  · rw [h]; exact hκabs
  · rw [show w = π by linarith, abs_of_pos hπ]; exact hmRπ
  · exfalso; linarith
  · exfalso; linarith
  · exfalso; linarith

/-- C1, amended.  After a ChainLink.update with positive step distance
and maxAngle in [0, 180], the normalised angle difference between the
direction from link[i-1] to the new link[i] position and the direction
from link[i-1] TO link[i-2] (the anchor direction the source actually
computes, pointing backwards along the chain) has magnitude at least
(180 - maxAngle) degrees: the link stays outside the forbidden cone
around the backward direction. -/
theorem c1_clamp_outside_forbidden_cone (c dc ac : ChainLink)
    (maxAngle distance : ℝ) (h0 : 0 ≤ maxAngle) (h180 : maxAngle ≤ 180)
    (hd : 0 < distance) :
    (180 - maxAngle) * π / 180 ≤
      |normA (angle (sub (chainLinkUpdate c dc distance ac maxAngle).pos dc.pos)
        - angle (sub ac.pos dc.pos))| := by
  have hπ := Real.pi_pos
  set A := angle (sub ac.pos dc.pos) with hA_def
  set C := angle (sub c.pos dc.pos) with hC_def
  have hA := angle_mem_Ioc (sub ac.pos dc.pos)
  have hC := angle_mem_Ioc (sub c.pos dc.pos)
  rw [← hA_def] at hA
  rw [← hC_def] at hC
  set mR := (180 - maxAngle) * π / 180 with hmR_def
  have hmRπ : mR ≤ π := by
    rw [hmR_def]
    rw [div_le_iff₀ (by norm_num : (0 : ℝ) < 180)]
    nlinarith [mul_nonneg h0 hπ.le]
  set d1 := normA (C - A) with hd1_def
  have hd1m : -π < d1 ∧ d1 ≤ π := by
    rw [hd1_def]
    exact normA_mem_Ioc (by linarith [hA.1, hA.2, hC.1, hC.2])
      (by linarith [hA.1, hA.2, hC.1, hC.2])
  set κ := clampDiff d1 mR with hκ_def
  have hκm : -π ≤ κ ∧ κ ≤ π := by
    rw [hκ_def]
    exact clampDiff_mem hd1m.1.le hd1m.2 hmRπ
  have hκabs : mR ≤ |κ| := by
    rw [hκ_def]
    exact clampDiff_abs_ge d1 mR
  have hpos : (chainLinkUpdate c dc distance ac maxAngle).pos
      = addPolar dc.pos distance (κ + A) := rfl
  have hn : angle (sub (addPolar dc.pos distance (κ + A)) dc.pos)
      = normA (κ + A) :=
    angle_addPolar_sub dc.pos hd (by linarith [hκm.1, hA.1])
      (by linarith [hκm.2, hA.2])
  rw [hpos, hn]
  have hum : -π < normA (κ + A) ∧ normA (κ + A) ≤ π :=
    normA_mem_Ioc (by linarith [hκm.1, hA.1]) (by linarith [hκm.2, hA.2])
  have hwm : -π < normA (normA (κ + A) - A) ∧ normA (normA (κ + A) - A) ≤ π :=
    normA_mem_Ioc (by linarith [hum.1, hA.2]) (by linarith [hum.2, hA.1])
  have h1 := normA_cases (κ + A)
  have h2 := normA_cases (normA (κ + A) - A)
  have hk : normA (normA (κ + A) - A) = κ ∨
      normA (normA (κ + A) - A) = κ + 2 * π ∨
      normA (normA (κ + A) - A) = κ - 2 * π ∨
      normA (normA (κ + A) - A) = κ + 4 * π ∨
      normA (normA (κ + A) - A) = κ - 4 * π := by
    rcases h1 with a | a | a <;> rcases h2 with b | b | b <;>
      first
        | exact Or.inl (by linarith)
        | exact Or.inr (Or.inl (by linarith))
        | exact Or.inr (Or.inr (Or.inl (by linarith)))
        | exact Or.inr (Or.inr (Or.inr (Or.inl (by linarith))))
        | exact Or.inr (Or.inr (Or.inr (Or.inr (by linarith))))
  exact clamp_wrap_bound hmRπ hκm.1 hκm.2 hκabs hwm.1 hwm.2 hk

/-- C1, counterexample to the claim as stated.  For the straight
configuration link[i-2]=(0,0), link[i-1]=(1,0), link[i]=(2,0) with
maxAngle = 90 and step distance 1, the resolved link stays at (2,0) and
the angle difference against the direction FROM link[i-2] TO link[i-1]
(the direction named by the claim) is 0, far below the claimed
180 - 90 = 90 degree minimum. -/
theorem c1_counterexample :
    ¬ ((180 - 90) * π / 180 ≤
      |normA (angle (sub (chainLinkUpdate ⟨1, ⟨2, 0⟩, 0⟩ ⟨1, ⟨1, 0⟩, 0⟩ 1
          ⟨1, ⟨0, 0⟩, 0⟩ 90).pos ⟨1, 0⟩)
        - angle (sub (⟨1, 0⟩ : Vec2) ⟨0, 0⟩))|) := by
  have hπ := Real.pi_pos
  have hanchor : angle (sub (⟨0, 0⟩ : Vec2) ⟨1, 0⟩) = π := by
    rw [show sub (⟨0, 0⟩ : Vec2) ⟨1, 0⟩ = ⟨-1, 0⟩ by unfold sub; ext <;> norm_num]
    exact angle_neg_unit_x
  have hcur : angle (sub (⟨2, 0⟩ : Vec2) ⟨1, 0⟩) = 0 := by
    rw [show sub (⟨2, 0⟩ : Vec2) ⟨1, 0⟩ = ⟨1, 0⟩ by unfold sub; ext <;> norm_num]
    exact angle_unit_x
  have hdiff : normA (0 - π) = π := by
    unfold normA
    rw [if_neg (by linarith), if_pos (by linarith)]
    ring
  have hclamp : clampDiff π ((180 - 90) * π / 180) = π := by
    apply clampDiff_fix
    rw [abs_of_pos hπ]
    nlinarith
  have hpos : (chainLinkUpdate ⟨1, ⟨2, 0⟩, 0⟩ ⟨1, ⟨1, 0⟩, 0⟩ 1
      ⟨1, ⟨0, 0⟩, 0⟩ 90).pos = addPolar ⟨1, 0⟩ 1 (π + π) := by
    unfold chainLinkUpdate
    dsimp only
    rw [hanchor, hcur, hdiff, hclamp]
  rw [hpos, angle_addPolar_sub (⟨1, 0⟩ : Vec2) one_pos (by linarith) (by linarith),
    show normA (π + π) = 0 by unfold normA; rw [if_pos (by linarith)]; ring,
    show sub (⟨1, 0⟩ : Vec2) ⟨0, 0⟩ = ⟨1, 0⟩ by unfold sub; ext <;> norm_num,
    angle_unit_x, show (0 : ℝ) - 0 = 0 by ring,
    normA_id (by linarith) (by linarith), abs_zero, not_le]
  nlinarith

/-- Helper: the angle of the zero vector is 0, as for Math.atan2(0,0). -/
theorem angle_zero_vec : angle ⟨0, 0⟩ = 0 := by
  have h : toC ⟨0, 0⟩ = 0 := by
    unfold toC
    dsimp
    norm_num
  unfold angle
  rw [h, Complex.arg_zero]

/-- Helper: a repeated ChainLink.update against constrainers standing at
the same positions leaves the link position fixed, provided the step
distance is nonnegative and maxAngle is nonnegative (so the clamped
angle threshold is at most π). -/
theorem chainLinkUpdate_pos_stable (c dc ac dc' ac' : ChainLink)
    (distance maxAngle : ℝ) (hd : 0 ≤ distance) (hm : 0 ≤ maxAngle)
    (hdc : dc'.pos = dc.pos) (hac : ac'.pos = ac.pos) :
    (chainLinkUpdate (chainLinkUpdate c dc distance ac maxAngle) dc'
        distance ac' maxAngle).pos
      = (chainLinkUpdate c dc distance ac maxAngle).pos := by
  have hπ := Real.pi_pos
  rcases eq_or_lt_of_le hd with hd0 | hdpos
  · subst hd0
    show (addPolar dc'.pos 0 _) = addPolar dc.pos 0 _
    rw [addPolar_zero, addPolar_zero, hdc]
  · unfold chainLinkUpdate
    dsimp only
    rw [hdc, hac]
    set A := angle (sub ac.pos dc.pos) with hA_def
    set C := angle (sub c.pos dc.pos) with hC_def
    have hA := angle_mem_Ioc (sub ac.pos dc.pos)
    have hC := angle_mem_Ioc (sub c.pos dc.pos)
    rw [← hA_def] at hA
    rw [← hC_def] at hC
    set mR := (180 - maxAngle) * π / 180 with hmR_def
    have hmRπ : mR ≤ π := by
      rw [hmR_def]
      rw [div_le_iff₀ (by norm_num : (0 : ℝ) < 180)]
      nlinarith [mul_nonneg hm hπ.le]
    set d1 := normA (C - A) with hd1_def
    have hd1m : -π < d1 ∧ d1 ≤ π := by
      rw [hd1_def]
      exact normA_mem_Ioc (by linarith [hA.1, hA.2, hC.1, hC.2])
        (by linarith [hA.1, hA.2, hC.1, hC.2])
    set κ := clampDiff d1 mR with hκ_def
    have hκm : -π ≤ κ ∧ κ ≤ π := by
      rw [hκ_def]
      exact clampDiff_mem hd1m.1.le hd1m.2 hmRπ
    have hκabs : mR ≤ |κ| := by
      rw [hκ_def]
      exact clampDiff_abs_ge d1 mR
    have hn : angle (sub (addPolar dc.pos distance (κ + A)) dc.pos)
        = normA (κ + A) :=
      angle_addPolar_sub dc.pos hdpos (by linarith [hκm.1, hA.1])
        (by linarith [hκm.2, hA.2])
    rw [hn]
    have hum : -π < normA (κ + A) ∧ normA (κ + A) ≤ π :=
      normA_mem_Ioc (by linarith [hκm.1, hA.1]) (by linarith [hκm.2, hA.2])
    have hwm : -π < normA (normA (κ + A) - A) ∧ normA (normA (κ + A) - A) ≤ π :=
      normA_mem_Ioc (by linarith [hum.1, hA.2]) (by linarith [hum.2, hA.1])
    have h1 := normA_cases (κ + A)
    have h2 := normA_cases (normA (κ + A) - A)
    have hk : normA (normA (κ + A) - A) = κ ∨
        normA (normA (κ + A) - A) = κ + 2 * π := by
      rcases h1 with a | a | a <;> rcases h2 with b | b | b <;>
        first
          | exact Or.inl (by linarith [hwm.1, hwm.2, hκm.1, hκm.2])
          | exact Or.inr (by linarith [hwm.1, hwm.2, hκm.1, hκm.2])
          | (exfalso; linarith [hwm.1, hwm.2, hκm.1, hκm.2])
    have hw_abs : mR ≤ |normA (normA (κ + A) - A)| := by
      rcases hk with h | h
      · rw [h]; exact hκabs
      · rw [show normA (normA (κ + A) - A) = π by linarith [hwm.2, hκm.1],
          abs_of_pos hπ]
        exact hmRπ
    rw [clampDiff_fix hw_abs]
    rcases hk with h | h
    · rw [h]
    · rw [h]
      unfold addPolar
      ext <;> dsimp
      · rw [show κ + 2 * π + A = κ + A + 2 * π by ring, Real.cos_add_two_pi]
      · rw [show κ + 2 * π + A = κ + A + 2 * π by ring, Real.sin_add_two_pi]

/-- Helper: re-running the i ≥ 2 chain loop on its own output, against
predecessor links standing at the same positions, preserves every link
position. -/
theorem updChain_pos_stable (spacing scale maxAngle : ℝ)
    (hd : 0 ≤ spacing * scale) (hm : 0 ≤ maxAngle) :
    ∀ (rest : List ChainLink) (p2 p1 p2' p1' : ChainLink),
      p2'.pos = p2.pos → p1'.pos = p1.pos →
      (updChain spacing scale maxAngle p2' p1'
          (updChain spacing scale maxAngle p2 p1 rest)).map ChainLink.pos
        = (updChain spacing scale maxAngle p2 p1 rest).map ChainLink.pos := by
  intro rest
  induction rest with
  | nil => intro p2 p1 p2' p1' h2 h1; rfl
  | cons c cs ih =>
    intro p2 p1 p2' p1' h2 h1
    have hstep : (chainLinkUpdate (chainLinkUpdate c p1 (spacing * scale) p2 maxAngle)
        p1' (spacing * scale) p2' maxAngle).pos
          = (chainLinkUpdate c p1 (spacing * scale) p2 maxAngle).pos :=
      chainLinkUpdate_pos_stable c p1 p2 p1' p2' (spacing * scale) maxAngle hd hm h1 h2
    have htail := ih p1 (chainLinkUpdate c p1 (spacing * scale) p2 maxAngle) p1'
      (chainLinkUpdate (chainLinkUpdate c p1 (spacing * scale) p2 maxAngle)
        p1' (spacing * scale) p2' maxAngle) h1 hstep
    simp only [updChain, List.map_cons]
    rw [hstep, htail]

/-- C3, amended.  Re-running BodyBase.update with the same head position
leaves every link POSITION unchanged (given nonnegative maxAngle and a
nonnegative step spacing*scale); it is NOT a complete no-op — the
directionAngle fields (and hence totalCurvature) can change on the
second call, because update stores each link's pre-clamp angle while
placing the link at the clamped angle. -/
theorem c3_second_update_preserves_positions (b : BodyState) (p : Vec2)
    (hlen : 2 ≤ b.links.length) (hsp : 0 ≤ b.spacing * b.scale)
    (hm : 0 ≤ b.maxAngle) :
    (bodyUpdate (bodyUpdate b p) p).links.map ChainLink.pos
      = (bodyUpdate b p).links.map ChainLink.pos := by
  obtain ⟨links, sp, mA, sc, tc⟩ := b
  rcases links with _ | ⟨l0, _ | ⟨l1, rest⟩⟩
  · simp at hlen
  · simp at hlen
  · set θ := angle (sub l1.pos p) with hθ_def
    have hθm := angle_mem_Ioc (sub l1.pos p)
    rw [← hθ_def] at hθm
    simp only [bodyUpdate]
    try dsimp only
    rcases eq_or_lt_of_le hsp with hs0 | hspos
    · rw [← hs0]
      simp only [addPolar_zero, List.map_cons]
      try dsimp only
      rw [updChain_pos_stable sp sc mA hsp hm rest
        ⟨l0.radius, p, θ⟩ ⟨l1.radius, p, θ⟩
        ⟨l0.radius, p, angle (sub p p)⟩ ⟨l1.radius, p, angle (sub p p)⟩ rfl rfl]
    · have hθ2 : angle (sub (addPolar p (sp * sc) θ) p) = θ := by
        rw [angle_addPolar_sub p hspos (by linarith [hθm.1]) (by linarith [hθm.2])]
        exact normA_id hθm.1 hθm.2
      rw [hθ2]
      simp only [List.map_cons]
      try dsimp only
      rw [updChain_pos_stable sp sc mA hsp hm rest
        ⟨l0.radius, p, θ⟩ ⟨l1.radius, addPolar p (sp * sc) θ, θ⟩
        ⟨l0.radius, p, θ⟩ ⟨l1.radius, addPolar p (sp * sc) θ, θ⟩ rfl rfl]

/-- C3, counterexample to the claim as stated.  For the concrete
three-link chain bodyCex, two successive updates with head position
(0,0) do NOT leave the chain in the same state: link 2's directionAngle
is π after one call (the pre-clamp angle of its old position) but
-π/2 after the second call (the angle of its clamped position), so the
second call is not a no-op. -/
theorem c3_counterexample :
    ((bodyUpdate (bodyUpdate bodyCex ⟨0, 0⟩) ⟨0, 0⟩).links.getD 2
        default).directionAngle ≠
      ((bodyUpdate bodyCex ⟨0, 0⟩).links.getD 2 default).directionAngle := by
  have hπ := Real.pi_pos
  have hsub1 : sub (⟨1, 0⟩ : Vec2) ⟨0, 0⟩ = ⟨1, 0⟩ := by
    unfold sub; ext <;> norm_num
  have hθ : angle (sub (⟨1, 0⟩ : Vec2) ⟨0, 0⟩) = 0 := by
    rw [hsub1]; exact angle_unit_x
  have haddP : addPolar ⟨0, 0⟩ (1 * 1) 0 = (⟨1, 0⟩ : Vec2) := by
    unfold addPolar
    ext <;> dsimp <;> norm_num [Real.cos_zero, Real.sin_zero]
  have hsubn : sub (⟨0, 0⟩ : Vec2) ⟨1, 0⟩ = ⟨-1, 0⟩ := by
    unfold sub; ext <;> norm_num
  have hmr0 : (0 : ℝ) ≤ (180 - 90) * π / 180 := by positivity
  have hmrπ : (180 - 90 : ℝ) * π / 180 ≤ π := by
    rw [div_le_iff₀ (by norm_num : (0 : ℝ) < 180)]
    nlinarith
  have h1 : (bodyUpdate bodyCex ⟨0, 0⟩).links
      = [⟨1, ⟨0, 0⟩, 0⟩, ⟨1, ⟨1, 0⟩, 0⟩,
         ⟨1, addPolar ⟨1, 0⟩ (1 * 1) ((180 - 90) * π / 180 + π), π⟩] := by
    simp only [bodyUpdate, bodyCex, updChain, chainLinkUpdate]
    try dsimp only
    rw [hθ, haddP, hsubn, angle_neg_unit_x,
      show π - π = 0 by ring, normA_id (by linarith) (by linarith),
      show clampDiff 0 ((180 - 90) * π / 180) = (180 - 90) * π / 180 by
        unfold clampDiff
        rw [if_neg (lt_irrefl 0), max_eq_right hmr0]]
  have hsp1 : (bodyUpdate bodyCex ⟨0, 0⟩).spacing = 1 := by
    simp [bodyUpdate, bodyCex]
  have hsc1 : (bodyUpdate bodyCex ⟨0, 0⟩).scale = 1 := by
    simp [bodyUpdate, bodyCex]
  have hma1 : (bodyUpdate bodyCex ⟨0, 0⟩).maxAngle = 90 := by
    simp [bodyUpdate, bodyCex]
  set B1 := bodyUpdate bodyCex ⟨0, 0⟩ with hB1_def
  have h2 : ((bodyUpdate B1 ⟨0, 0⟩).links.getD 2 default).directionAngle
      = normA ((180 - 90) * π / 180 + π) := by
    simp only [bodyUpdate]
    rw [h1, hsp1, hsc1, hma1]
    simp only [updChain, chainLinkUpdate]
    try dsimp only
    simp only [List.getD_cons_succ, List.getD_cons_zero]
    rw [hθ, haddP]
    exact angle_addPolar_sub (⟨1, 0⟩ : Vec2) (by norm_num : (0 : ℝ) < 1 * 1)
      (by linarith) (by linarith)
  have h1dir : (B1.links.getD 2 default).directionAngle = π := by
    rw [h1]
    simp only [List.getD_cons_succ, List.getD_cons_zero]
  rw [h2, h1dir, show (180 - 90 : ℝ) * π / 180 + π = 3 * π / 2 by ring]
  unfold normA
  rw [if_pos (by linarith : 3 * π / 2 > π)]
  intro hcontra
  linarith

/-- Witness for the amended C3 at the concrete two-link chain bodyW and
head position (3,4). -/
theorem c3_witness :
    2 ≤ bodyW.links.length ∧ 0 ≤ bodyW.spacing * bodyW.scale ∧
      0 ≤ bodyW.maxAngle ∧
      (bodyUpdate (bodyUpdate bodyW ⟨3, 4⟩) ⟨3, 4⟩).links.map ChainLink.pos
        = (bodyUpdate bodyW ⟨3, 4⟩).links.map ChainLink.pos :=
  ⟨by simp [bodyW], by norm_num [bodyW], by norm_num [bodyW],
    c3_second_update_preserves_positions bodyW ⟨3, 4⟩ (by simp [bodyW])
      (by norm_num [bodyW]) (by norm_num [bodyW])⟩

/-- Witness for the amended C1 at the concrete straight three-link
configuration with maxAngle 90 and unit step. -/
theorem c1_witness :
    (0 : ℝ) ≤ 90 ∧ (90 : ℝ) ≤ 180 ∧ (0 : ℝ) < 1 ∧
      (180 - 90) * π / 180 ≤
        |normA (angle (sub (chainLinkUpdate ⟨1, ⟨2, 0⟩, 0⟩ ⟨1, ⟨1, 0⟩, 0⟩ 1
            ⟨1, ⟨0, 0⟩, 0⟩ 90).pos (⟨1, ⟨1, 0⟩, 0⟩ : ChainLink).pos)
          - angle (sub (⟨1, ⟨0, 0⟩, 0⟩ : ChainLink).pos
              (⟨1, ⟨1, 0⟩, 0⟩ : ChainLink).pos))| :=
  ⟨by norm_num, by norm_num, by norm_num,
    c1_clamp_outside_forbidden_cone ⟨1, ⟨2, 0⟩, 0⟩ ⟨1, ⟨1, 0⟩, 0⟩
      ⟨1, ⟨0, 0⟩, 0⟩ 90 1 (by norm_num) (by norm_num) (by norm_num)⟩

/-- Helper: a point displaced from a centre by (aa·u + hh·v, aa·v - hh·u)/dd
lies at distance rr from the centre whenever u,v span a segment of
length dd and aa² + hh² = rr². -/
theorem circle_point_dist (cx cy u v dd aa hh rr : ℝ) (hrr : 0 ≤ rr)
    (hdd : dd ≠ 0) (hS : u * u + v * v = dd * dd)
    (hsum : aa * aa + hh * hh = rr * rr) :
    distV ⟨cx + aa * u / dd + hh * v / dd, cy + aa * v / dd - hh * u / dd⟩
      ⟨cx, cy⟩ = rr := by
  unfold distV
  dsimp
  rw [show (cx + aa * u / dd + hh * v / dd - cx) * (cx + aa * u / dd + hh * v / dd - cx)
        + (cy + aa * v / dd - hh * u / dd - cy) * (cy + aa * v / dd - hh * u / dd - cy)
      = (aa * aa + hh * hh) * (u * u + v * v) / (dd * dd) by ring,
    hS, hsum, mul_div_assoc, div_self (mul_ne_zero hdd hdd), mul_one]
  exact Real.sqrt_mul_self hrr

/-- Helper: the mirrored displacement (aa·u - hh·v, aa·v + hh·u)/dd also
lies at distance rr. -/
theorem circle_point_dist2 (cx cy u v dd aa hh rr : ℝ) (hrr : 0 ≤ rr)
    (hdd : dd ≠ 0) (hS : u * u + v * v = dd * dd)
    (hsum : aa * aa + hh * hh = rr * rr) :
    distV ⟨cx + aa * u / dd - hh * v / dd, cy + aa * v / dd + hh * u / dd⟩
      ⟨cx, cy⟩ = rr := by
  unfold distV
  dsimp
  rw [show (cx + aa * u / dd - hh * v / dd - cx) * (cx + aa * u / dd - hh * v / dd - cx)
        + (cy + aa * v / dd + hh * u / dd - cy) * (cy + aa * v / dd + hh * u / dd - cy)
      = (aa * aa + hh * hh) * (u * u + v * v) / (dd * dd) by ring,
    hS, hsum, mul_div_assoc, div_self (mul_ne_zero hdd hdd), mul_one]
  exact Real.sqrt_mul_self hrr

/-- Helper: circle intersection is symmetric — swapping the two circles
returns the same points in reversed order (the empty case included). -/
theorem getIntercection_symm (p1 p2 : Vec2) (r1 r2 : ℝ) :
    getIntercectionPoint p2 p1 r2 r1 = (getIntercectionPoint p1 p2 r1 r2).reverse := by
  unfold getIntercectionPoint
  try dsimp only
  rw [show (p1.x - p2.x) * (p1.x - p2.x) + (p1.y - p2.y) * (p1.y - p2.y)
      = (p2.x - p1.x) * (p2.x - p1.x) + (p2.y - p1.y) * (p2.y - p1.y) by ring]
  set d := Real.sqrt ((p2.x - p1.x) * (p2.x - p1.x) + (p2.y - p1.y) * (p2.y - p1.y))
    with hd_def
  by_cases hc : d > r1 + r2 ∨ d < |r1 - r2|
  · rw [if_pos (by rwa [add_comm r2 r1, abs_sub_comm r2 r1]), if_pos hc]
    rfl
  · rw [if_neg (by rwa [add_comm r2 r1, abs_sub_comm r2 r1]), if_neg hc]
    by_cases hdz : d = 0
    · have hS0 : (p2.x - p1.x) * (p2.x - p1.x) + (p2.y - p1.y) * (p2.y - p1.y) = 0 := by
        refine (Real.sqrt_eq_zero ?_).1 (hd_def ▸ hdz)
        nlinarith [mul_self_nonneg (p2.x - p1.x), mul_self_nonneg (p2.y - p1.y)]
      have hx : p2.x = p1.x := by
        nlinarith [mul_self_nonneg (p2.x - p1.x), mul_self_nonneg (p2.y - p1.y)]
      have hy : p2.y = p1.y := by
        nlinarith [mul_self_nonneg (p2.x - p1.x), mul_self_nonneg (p2.y - p1.y)]
      rw [hx, hy]
      simp [sub_self]
    · have ha' : (r2 * r2 - r1 * r1 + d * d) / (2 * d)
          = d - (r1 * r1 - r2 * r2 + d * d) / (2 * d) := by
        field_simp
        ring
      rw [ha']
      set a := (r1 * r1 - r2 * r2 + d * d) / (2 * d) with ha_def
      have ha2d : a * (2 * d) = r1 * r1 - r2 * r2 + d * d := by
        rw [ha_def]
        field_simp
      have hr2a : r2 * r2 - (d - a) * (d - a) = r1 * r1 - a * a := by
        linear_combination ha2d
      rw [hr2a]
      simp only [List.reverse_cons, List.reverse_nil, List.nil_append,
        List.cons_append]
      congr 1
      · ext <;> dsimp <;> field_simp <;> ring
      · congr 1
        ext <;> dsimp <;> field_simp <;> ring

/-- Helper: when the centres are distinct, every point returned by
getIntercectionPoint lies on both circles. -/
theorem getIntercection_mem_dist (p1 p2 : Vec2) (r1 r2 : ℝ)
    (hr1 : 0 ≤ r1) (hr2 : 0 ≤ r2) (hd : 0 < distV p2 p1) :
    ∀ q ∈ getIntercectionPoint p1 p2 r1 r2,
      distV q p1 = r1 ∧ distV q p2 = r2 := by
  intro q hq
  unfold getIntercectionPoint at hq
  try dsimp only at hq
  have hfold : Real.sqrt ((p2.x - p1.x) * (p2.x - p1.x)
      + (p2.y - p1.y) * (p2.y - p1.y)) = distV p2 p1 := rfl
  rw [hfold] at hq
  set d := distV p2 p1 with hd_def
  by_cases hc : d > r1 + r2 ∨ d < |r1 - r2|
  · rw [if_pos hc] at hq
    simp at hq
  · rw [if_neg hc] at hq
    push_neg at hc
    obtain ⟨hc1, hc2⟩ := hc
    have habs := abs_le.1 hc2
    have hdne : d ≠ 0 := ne_of_gt hd
    have hS : (p2.x - p1.x) * (p2.x - p1.x) + (p2.y - p1.y) * (p2.y - p1.y)
        = d * d := by
      rw [hd_def]
      unfold distV
      exact (Real.mul_self_sqrt (by
        nlinarith [mul_self_nonneg (p2.x - p1.x),
          mul_self_nonneg (p2.y - p1.y)])).symm
    set a := (r1 * r1 - r2 * r2 + d * d) / (2 * d) with ha_def
    have ha2d : a * (2 * d) = r1 * r1 - r2 * r2 + d * d := by
      rw [ha_def]
      field_simp
    have hfac : 0 ≤ (r2 - r1 + d) * ((r2 + r1 - d) * ((r1 + d - r2) * (r1 + d + r2))) := by
      have f1 : 0 ≤ r2 - r1 + d := by linarith [habs.2]
      have f2 : 0 ≤ r2 + r1 - d := by linarith
      have f3 : 0 ≤ r1 + d - r2 := by linarith [habs.1]
      have f4 : 0 ≤ r1 + d + r2 := by linarith
      exact mul_nonneg f1 (mul_nonneg f2 (mul_nonneg f3 f4))
    have hkey : (r1 * r1 - r2 * r2 + d * d) * (r1 * r1 - r2 * r2 + d * d)
        ≤ (2 * d * r1) * (2 * d * r1) := by nlinarith [hfac]
    have haa : a * a ≤ r1 * r1 := by
      rw [ha_def, div_mul_div_comm]
      have h2d : (0 : ℝ) < 2 * d := by linarith
      rw [div_le_iff₀ (mul_pos h2d h2d)]
      nlinarith [hkey]
    have hh2 : 0 ≤ r1 * r1 - a * a := by linarith
    set h := Real.sqrt (r1 * r1 - a * a) with hh_def
    have hhh : h * h = r1 * r1 - a * a := by
      rw [hh_def]
      exact Real.mul_self_sqrt hh2
    have hsum1 : a * a + h * h = r1 * r1 := by linarith
    have hsum2 : (a - d) * (a - d) + h * h = r2 * r2 := by
      linear_combination hhh - ha2d
    simp only [List.mem_cons, List.not_mem_nil, or_false] at hq
    rcases hq with rfl | rfl
    · constructor
      · exact circle_point_dist p1.x p1.y (p2.x - p1.x) (p2.y - p1.y) d a h r1
          hr1 hdne hS hsum1
      · rw [show (⟨p1.x + a * (p2.x - p1.x) / d + h * (p2.y - p1.y) / d,
              p1.y + a * (p2.y - p1.y) / d - h * (p2.x - p1.x) / d⟩ : Vec2)
            = ⟨p2.x + (a - d) * (p2.x - p1.x) / d + h * (p2.y - p1.y) / d,
               p2.y + (a - d) * (p2.y - p1.y) / d - h * (p2.x - p1.x) / d⟩ from by
          ext <;> dsimp <;> field_simp <;> ring]
        exact circle_point_dist p2.x p2.y (p2.x - p1.x) (p2.y - p1.y) d (a - d)
          h r2 hr2 hdne hS hsum2
    · constructor
      · exact circle_point_dist2 p1.x p1.y (p2.x - p1.x) (p2.y - p1.y) d a h r1
          hr1 hdne hS hsum1
      · rw [show (⟨p1.x + a * (p2.x - p1.x) / d - h * (p2.y - p1.y) / d,
              p1.y + a * (p2.y - p1.y) / d + h * (p2.x - p1.x) / d⟩ : Vec2)
            = ⟨p2.x + (a - d) * (p2.x - p1.x) / d - h * (p2.y - p1.y) / d,
               p2.y + (a - d) * (p2.y - p1.y) / d + h * (p2.x - p1.x) / d⟩ from by
          ext <;> dsimp <;> field_simp <;> ring]
        exact circle_point_dist2 p2.x p2.y (p2.x - p1.x) (p2.y - p1.y) d (a - d)
          h r2 hr2 hdne hS hsum2

/-- C2, amended.  getIntercectionPoint returns the empty list exactly
when d > r1+r2 or d < |r1-r2|; otherwise it returns exactly 2 points;
provided additionally that the centres are DISTINCT (d > 0), each
returned point lies on both circles; and swapping the circles yields
the same point set in reversed order.  (With coincident centres and
equal positive radii the guard does not fire, and the two returned
points are garbage — see the counterexample — which is what forces the
d > 0 proviso on the on-circle part.) -/
theorem c2_circle_intersection (p1 p2 : Vec2) (r1 r2 : ℝ)
    (hr1 : 0 ≤ r1) (hr2 : 0 ≤ r2) :
    (getIntercectionPoint p1 p2 r1 r2 = [] ↔
      (distV p2 p1 > r1 + r2 ∨ distV p2 p1 < |r1 - r2|)) ∧
    (¬(distV p2 p1 > r1 + r2 ∨ distV p2 p1 < |r1 - r2|) →
      (getIntercectionPoint p1 p2 r1 r2).length = 2) ∧
    (0 < distV p2 p1 → ∀ q ∈ getIntercectionPoint p1 p2 r1 r2,
      distV q p1 = r1 ∧ distV q p2 = r2) ∧
    getIntercectionPoint p2 p1 r2 r1 = (getIntercectionPoint p1 p2 r1 r2).reverse := by
  have hfold : Real.sqrt ((p2.x - p1.x) * (p2.x - p1.x)
      + (p2.y - p1.y) * (p2.y - p1.y)) = distV p2 p1 := rfl
  refine ⟨?_, ?_, fun hd => getIntercection_mem_dist p1 p2 r1 r2 hr1 hr2 hd,
    getIntercection_symm p1 p2 r1 r2⟩
  · unfold getIntercectionPoint
    try dsimp only
    rw [hfold]
    by_cases hc : distV p2 p1 > r1 + r2 ∨ distV p2 p1 < |r1 - r2|
    · rw [if_pos hc]
      simp only [eq_self_iff_true, true_iff]
      exact hc
    · rw [if_neg hc]
      simp [hc]
  · intro hnc
    unfold getIntercectionPoint
    try dsimp only
    rw [hfold, if_neg hnc]
    rfl

/-- C2, counterexample to the claim as stated.  For coincident centres
and equal radii 1 the guard does not fire (d = 0 is neither greater
than 2 nor less than 0), and the function returns the centre twice —
a point NOT on either circle. -/
theorem c2_counterexample :
    getIntercectionPoint ⟨0, 0⟩ ⟨0, 0⟩ 1 1 = [⟨0, 0⟩, ⟨0, 0⟩] ∧
      distV (⟨0, 0⟩ : Vec2) ⟨0, 0⟩ ≠ 1 := by
  constructor
  · unfold getIntercectionPoint
    try dsimp only
    norm_num
  · unfold distV
    dsimp
    rw [show ((0 : ℝ) - 0) * (0 - 0) + (0 - 0) * (0 - 0) = 0 by ring,
      Real.sqrt_zero]
    norm_num

/-- Witness for the amended C2 at two unit circles with centres (0,0)
and (2,0). -/
theorem c2_witness :
    (0 : ℝ) ≤ 1 ∧ (0 : ℝ) ≤ 1 ∧
      ((getIntercectionPoint ⟨0, 0⟩ ⟨2, 0⟩ 1 1 = [] ↔
          (distV ⟨2, 0⟩ ⟨0, 0⟩ > 1 + 1 ∨ distV ⟨2, 0⟩ ⟨0, 0⟩ < |1 - 1|)) ∧
        (¬(distV ⟨2, 0⟩ ⟨0, 0⟩ > 1 + 1 ∨ distV ⟨2, 0⟩ ⟨0, 0⟩ < |1 - 1|) →
          (getIntercectionPoint ⟨0, 0⟩ ⟨2, 0⟩ 1 1).length = 2) ∧
        (0 < distV ⟨2, 0⟩ ⟨0, 0⟩ → ∀ q ∈ getIntercectionPoint ⟨0, 0⟩ ⟨2, 0⟩ 1 1,
          distV q ⟨0, 0⟩ = 1 ∧ distV q ⟨2, 0⟩ = 1) ∧
        getIntercectionPoint ⟨2, 0⟩ ⟨0, 0⟩ 1 1 =
          (getIntercectionPoint ⟨0, 0⟩ ⟨2, 0⟩ 1 1).reverse) :=
  ⟨by norm_num, by norm_num,
    c2_circle_intersection ⟨0, 0⟩ ⟨2, 0⟩ 1 1 (by norm_num) (by norm_num)⟩
